import Mathlib

/-!
Verification of the `QOpenGL3DViewer` 3D viewer core
(`src/classes/QOpenGL3DViewer/QOpenGL3DViewer.py`): data model, camera
interaction state machine, and per-frame draw-command emission, embedded
shallowly.  Numeric fields are modelled as rationals; OpenGL calls are
modelled as an emitted list of draw commands; Python operations that can
raise (out-of-range indexing, division by zero) return `Option`.
-/

namespace Q3DViewer

/-- A 2D position, as produced by `QVector2D(event.position())`. -/
structure Vec2 where
  x : ℚ
  y : ℚ
deriving DecidableEq

/-- A 3D vector (positions, rotations and RGB colors are 3-component). -/
structure Vec3 where
  x : ℚ
  y : ℚ
  z : ℚ
deriving DecidableEq

/-- `Cube` dataclass: position, size, rotation, color.  `size` is kept as a
list because the source's default is the two-component `np.array((1.0, 1.0))`
while `draw_cube` indexes three components. -/
structure Cube where
  position : Vec3
  size : List ℚ := [1, 1]
  rotation : Vec3 := ⟨0, 0, 0⟩
  color : Vec3 := ⟨1, 1, 0⟩
deriving DecidableEq

/-- `GroupPoints` dataclass: a list of 3D points and a shared color. -/
structure GroupPoints where
  points : List Vec3
  color : Vec3 := ⟨0, 1, 1⟩
deriving DecidableEq

/-- The mutable viewer fields touched by the mouse/wheel handlers and read
by `paintGL` (camera parameters and interaction flags). -/
structure ViewerState where
  angle_x : ℚ
  angle_y : ℚ
  translate_x : ℚ
  translate_y : ℚ
  zoom : ℚ
  last_mouse_position : Vec2
  mouse_pressed : Bool
  right_mouse_pressed : Bool
deriving DecidableEq

/-- The state set up by `__init__` (camera fields only; FPS/timer are
modelled separately by `change_FPS`). -/
def initState : ViewerState :=
  { angle_x := 0
    angle_y := 0
    translate_x := 0
    translate_y := 0
    zoom := -8
    last_mouse_position := ⟨0, 0⟩
    mouse_pressed := false
    right_mouse_pressed := false }

/-- Mouse buttons distinguished by the event handlers. -/
inductive MouseButton where
  | left
  | right
  | middle
deriving DecidableEq

/-- Events the viewer raises outward to its caller.  `insertMarker` is the
middle-click notification. -/
inductive OutEvent where
  | insertMarker
deriving DecidableEq

/-- Modelled from the spec: `add_cube_at_center` is called by
`mousePressEvent` on a middle-button press but is not defined anywhere in
the repository sources; the spec describes it as the viewer raising an
"insert a marker object at the world origin" notification outward to the
caller, owning no insertion policy itself.  So it leaves the viewer state
unchanged and emits the notification. -/
def add_cube_at_center (s : ViewerState) : ViewerState × List OutEvent :=
  (s, [OutEvent.insertMarker])

/-- `mousePressEvent`: left press sets `mouse_pressed` and records the
position; right press sets `right_mouse_pressed` and records the position;
middle press calls `add_cube_at_center`. -/
def mousePressEvent (b : MouseButton) (pos : Vec2) (s : ViewerState) :
    ViewerState × List OutEvent :=
  match b with
  | .left => ({ s with mouse_pressed := true, last_mouse_position := pos }, [])
  | .right => ({ s with right_mouse_pressed := true, last_mouse_position := pos }, [])
  | .middle => add_cube_at_center s

/-- `mouseMoveEvent`: if `mouse_pressed` (left held), rotate
(`angle_x += delta.y`, `angle_y += delta.x`); else if `right_mouse_pressed`,
pan (`translate_x += delta.x * 0.1`, `translate_y -= delta.y * 0.1`); in
both branches the reference position is updated to the current one. -/
def mouseMoveEvent (pos : Vec2) (s : ViewerState) : ViewerState :=
  if s.mouse_pressed then
    { s with
      angle_x := s.angle_x + (pos.y - s.last_mouse_position.y)
      angle_y := s.angle_y + (pos.x - s.last_mouse_position.x)
      last_mouse_position := pos }
  else if s.right_mouse_pressed then
    { s with
      translate_x := s.translate_x + (pos.x - s.last_mouse_position.x) * (1 / 10)
      translate_y := s.translate_y - (pos.y - s.last_mouse_position.y) * (1 / 10)
      last_mouse_position := pos }
  else s

/-- `mouseReleaseEvent`: left release clears `mouse_pressed`, right release
clears `right_mouse_pressed`; nothing else changes. -/
def mouseReleaseEvent (b : MouseButton) (s : ViewerState) : ViewerState :=
  match b with
  | .left => { s with mouse_pressed := false }
  | .right => { s with right_mouse_pressed := false }
  | .middle => s

/-- `wheelEvent`: `zoom += delta * 0.001`. -/
def wheelEvent (delta : ℚ) (s : ViewerState) : ViewerState :=
  { s with zoom := s.zoom + delta * (1 / 1000) }

/-- An input event fed to the viewer by the host UI framework. -/
inductive InputEvent where
  | press (b : MouseButton) (pos : Vec2)
  | move (pos : Vec2)
  | release (b : MouseButton)
  | wheel (delta : ℚ)
deriving DecidableEq

/-- One event step on the viewer state (outward events discarded). -/
def stepEvent (s : ViewerState) (e : InputEvent) : ViewerState :=
  match e with
  | .press b p => (mousePressEvent b p s).1
  | .move p => mouseMoveEvent p s
  | .release b => mouseReleaseEvent b s
  | .wheel d => wheelEvent d s

/-- Run a sequence of input events. -/
def runEvents (s : ViewerState) (es : List InputEvent) : ViewerState :=
  es.foldl stepEvent s

/-- Run a sequence of pointer-move events through `mouseMoveEvent`. -/
def runMoves (ps : List Vec2) (s : ViewerState) : ViewerState :=
  ps.foldl (fun t p => mouseMoveEvent p t) s

/-- Sum of per-step vertical deltas of a pointer path starting at `r`. -/
def sumDY (r : Vec2) : List Vec2 → ℚ
  | [] => 0
  | p :: ps => (p.y - r.y) + sumDY p ps

/-- Sum of per-step horizontal deltas of a pointer path starting at `r`. -/
def sumDX (r : Vec2) : List Vec2 → ℚ
  | [] => 0
  | p :: ps => (p.x - r.x) + sumDX p ps

/-! ## Renderer: draw commands -/

/-- One GL call issued by the renderer, abstracted as a command. -/
inductive DrawCmd where
  | clear
  | loadIdentity
  | translatef (x y z : ℚ)
  | rotatef (angle x y z : ℚ)
  | pushMatrix
  | popMatrix
  | color3f (r g b : ℚ)
  | vertex3f (x y z : ℚ)
  | beginLines
  | endPrim
  | pointSize (s : ℚ)
  | enableClientState
  | disableClientState
  | drawArraysLines (verts : List Vec3)
  | drawArraysPoints (pts : List Vec3)
deriving DecidableEq

/-- `draw_axes`: three colored axis segments of length 10 from the origin. -/
def draw_axes : List DrawCmd :=
  [.beginLines,
   .color3f 1 0 0, .vertex3f 0 0 0, .vertex3f 10 0 0,
   .color3f 0 1 0, .vertex3f 0 0 0, .vertex3f 0 10 0,
   .color3f 0 0 1, .vertex3f 0 0 0, .vertex3f 0 0 10,
   .endPrim]

/-- `draw_cube`: halves the size vector, builds the 8 corner vertices from
its first three components (indexing `half_size[0..2]`, which raises
`IndexError` — modelled as `none` — when the size has fewer than three
components), expands the 12 hard-coded edges into a line-vertex array and
draws it in one `GL_LINES` call. -/
def draw_cube (size : List ℚ) : Option (List DrawCmd) :=
  match size with
  | sx :: sy :: sz :: _ =>
    let hx := sx / 2
    let hy := sy / 2
    let hz := sz / 2
    let vertices : List Vec3 :=
      [⟨-hx, -hy, -hz⟩, ⟨hx, -hy, -hz⟩, ⟨hx, hy, -hz⟩, ⟨-hx, hy, -hz⟩,
       ⟨-hx, -hy, hz⟩, ⟨hx, -hy, hz⟩, ⟨hx, hy, hz⟩, ⟨-hx, hy, hz⟩]
    let edges : List (Nat × Nat) :=
      [(0, 1), (1, 2), (2, 3), (3, 0),
       (4, 5), (5, 6), (6, 7), (7, 4),
       (0, 4), (1, 5), (2, 6), (3, 7)]
    let line_vertices :=
      edges.foldr
        (fun e acc => vertices.getD e.1 ⟨0, 0, 0⟩ :: vertices.getD e.2 ⟨0, 0, 0⟩ :: acc) []
    some [.enableClientState, .drawArraysLines line_vertices, .disableClientState]
  | _ => none

/-- `draw_points`: returns immediately on an empty point list, otherwise
sets the point size and draws all points in one `GL_POINTS` call. -/
def draw_points (points : List Vec3) : List DrawCmd :=
  if points.length = 0 then []
  else
    [.pointSize 2, .enableClientState, .drawArraysPoints points, .disableClientState]

/-- The per-cube block of `paintGL`: push, translate to the cube's
position, set its color, rotate about X then Y then Z, `draw_cube`, pop. -/
def drawCubeCmds (c : Cube) : Option (List DrawCmd) := do
  let body ← draw_cube c.size
  pure ([.pushMatrix,
         .translatef c.position.x c.position.y c.position.z,
         .color3f c.color.x c.color.y c.color.z,
         .rotatef c.rotation.x 1 0 0,
         .rotatef c.rotation.y 0 1 0,
         .rotatef c.rotation.z 0 0 1] ++ body ++ [.popMatrix])

/-- The per-group block of `paintGL`: set the group color, then
`draw_points` (which is a no-op on an empty group). -/
def drawGroupCmds (g : GroupPoints) : List DrawCmd :=
  .color3f g.color.x g.color.y g.color.z :: draw_points g.points

/-- The cube rendering loop of `paintGL`, in caller-supplied order;
fails when a cube's size cannot be indexed. -/
def drawCubes : List Cube → Option (List DrawCmd)
  | [] => some []
  | c :: cs => do
    let b ← drawCubeCmds c
    let rest ← drawCubes cs
    pure (b ++ rest)

/-- The point-group rendering loop of `paintGL`, in caller-supplied order. -/
def drawGroups : List GroupPoints → List DrawCmd
  | [] => []
  | g :: gs => drawGroupCmds g ++ drawGroups gs

/-- `paintGL`: clear, reset the modelview transform, apply the camera
translate/rotations, draw the axes, then every cube, then every point
group.  Fails (`none`) when some cube's size cannot be indexed. -/
def paintGL (s : ViewerState) (cubes : List Cube) (groups : List GroupPoints) :
    Option (List DrawCmd) := do
  let cubeCmds ← drawCubes cubes
  pure ([.clear, .loadIdentity,
         .translatef s.translate_x s.translate_y s.zoom,
         .rotatef s.angle_x 1 0 0,
         .rotatef s.angle_y 0 1 0]
        ++ draw_axes
        ++ cubeCmds
        ++ drawGroups groups)

/-- The 24-entry line-vertex array `draw_cube` builds for half-extents
`(hx, hy, hz)`: the 12 edges of a box, each edge contributing its two
endpoint corners, in the source's hard-coded edge order. -/
def boxEdgeVerts (hx hy hz : ℚ) : List Vec3 :=
  [⟨-hx, -hy, -hz⟩, ⟨hx, -hy, -hz⟩,
   ⟨hx, -hy, -hz⟩, ⟨hx, hy, -hz⟩,
   ⟨hx, hy, -hz⟩, ⟨-hx, hy, -hz⟩,
   ⟨-hx, hy, -hz⟩, ⟨-hx, -hy, -hz⟩,
   ⟨-hx, -hy, hz⟩, ⟨hx, -hy, hz⟩,
   ⟨hx, -hy, hz⟩, ⟨hx, hy, hz⟩,
   ⟨hx, hy, hz⟩, ⟨-hx, hy, hz⟩,
   ⟨-hx, hy, hz⟩, ⟨-hx, -hy, hz⟩,
   ⟨-hx, -hy, -hz⟩, ⟨-hx, -hy, hz⟩,
   ⟨hx, -hy, -hz⟩, ⟨hx, -hy, hz⟩,
   ⟨hx, hy, -hz⟩, ⟨hx, hy, hz⟩,
   ⟨-hx, hy, -hz⟩, ⟨-hx, hy, hz⟩]

/-- The full command block `paintGL` emits for one cube whose size list has
at least three components, described through the first three components. -/
def cubeBlock (c : Cube) : List DrawCmd :=
  [.pushMatrix,
   .translatef c.position.x c.position.y c.position.z,
   .color3f c.color.x c.color.y c.color.z,
   .rotatef c.rotation.x 1 0 0,
   .rotatef c.rotation.y 0 1 0,
   .rotatef c.rotation.z 0 0 1]
  ++ [.enableClientState,
      .drawArraysLines
        (boxEdgeVerts (c.size.getD 0 0 / 2) (c.size.getD 1 0 / 2) (c.size.getD 2 0 / 2)),
      .disableClientState]
  ++ [.popMatrix]

/-! ## Projection and timer -/

/-- Division that fails (`none`) on a zero denominator, as Python's `/`
raises `ZeroDivisionError`. -/
def ratDiv (a b : ℚ) : Option ℚ :=
  if b = 0 then none else some (a / b)

/-- The perspective projection parameters passed to `gluPerspective`. -/
structure Projection where
  fovy : ℚ
  aspect : ℚ
  zNear : ℚ
  zFar : ℚ
deriving DecidableEq

/-- `resizeGL`: replaces a zero height by 1, then sets a 45° perspective
with aspect `w / h`, near 0.1, far 100. -/
def resizeGL (w h : ℤ) : Option Projection := do
  let h : ℤ := if h = 0 then 1 else h
  let aspect ← ratDiv (w : ℚ) (h : ℚ)
  pure ⟨45, aspect, 1 / 10, 100⟩

/-- The render timer: whether it is running and its interval (ms). -/
structure TimerState where
  active : Bool
  interval : ℚ
deriving DecidableEq

/-- An operation performed on the `QTimer`. -/
inductive TimerOp where
  | stop
  | start (interval : ℚ)
deriving DecidableEq

/-- `change_FPS`: stop the timer if it is active, then start it with
interval `1000 / FPS` ms (the division raises — `none` — when FPS is 0).
Returns the final timer state together with the timer operations issued. -/
def change_FPS (fps : ℚ) (t : TimerState) : Option (TimerState × List TimerOp) := do
  let pre : TimerState × List TimerOp :=
    if t.active then ({ t with active := false }, [TimerOp.stop]) else (t, [])
  let i ← ratDiv 1000 fps
  pure ({ active := true, interval := i }, pre.2 ++ [TimerOp.start i])

/-! ## Concrete states and scenes used by witnesses and counterexamples -/

/-- Press left, then right: both buttons held, right pressed most recently. -/
def bothHeldSeq : List InputEvent :=
  [.press .left ⟨0, 0⟩, .press .right ⟨0, 0⟩, .move ⟨10, 0⟩]

/-- State with both buttons held (left pressed first, then right). -/
def sBoth : ViewerState :=
  runEvents initState [.press .left ⟨0, 0⟩, .press .right ⟨3, 4⟩]

/-- State right after a left press at (100, 100). -/
def sLeft : ViewerState :=
  runEvents initState [.press .left ⟨100, 100⟩]

/-- State right after a right press at (50, 50). -/
def sRight : ViewerState :=
  runEvents initState [.press .right ⟨50, 50⟩]

/-- A `Cube` built with only a position, taking every default field. -/
def defaultCube : Cube := { position := ⟨0, 0, 0⟩ }

/-- The spec's scenario cube: unit half-extents, axis-aligned, yellow. -/
def demoCube : Cube :=
  { position := ⟨0, 0, 0⟩, size := [2, 2, 2], rotation := ⟨0, 0, 0⟩, color := ⟨1, 1, 0⟩ }

/-- A point group with an empty point list. -/
def emptyGroup : GroupPoints := { points := [] }

/-! ## Bridge lemmas -/

/-- `draw_cube` on a size list with at least three components succeeds and
emits the 12-edge wireframe built from the first three components. -/
theorem draw_cube_eq (size : List ℚ) (h : 3 ≤ size.length) :
    draw_cube size =
      some [.enableClientState,
            .drawArraysLines
              (boxEdgeVerts (size.getD 0 0 / 2) (size.getD 1 0 / 2) (size.getD 2 0 / 2)),
            .disableClientState] := by
  cases size with
  | nil => simp at h
  | cons sx t1 =>
    cases t1 with
    | nil => simp at h
    | cons sy t2 =>
      cases t2 with
      | nil => simp at h
      | cons sz rest => rfl

/-- The per-cube block succeeds and equals `cubeBlock` whenever the cube's
size list has at least three components. -/
theorem drawCubeCmds_eq (c : Cube) (h : 3 ≤ c.size.length) :
    drawCubeCmds c = some (cubeBlock c) := by
  unfold drawCubeCmds
  rw [draw_cube_eq c.size h]
  rfl

/-- The cube loop succeeds on a list of indexable cubes, emitting each
cube's block in order. -/
theorem drawCubes_eq (cubes : List Cube) (h : ∀ c ∈ cubes, 3 ≤ c.size.length) :
    drawCubes cubes = some ((cubes.map cubeBlock).foldr (· ++ ·) []) := by
  induction cubes with
  | nil => rfl
  | cons c cs ih =>
    have hc : drawCubeCmds c = some (cubeBlock c) :=
      drawCubeCmds_eq c (h c (by simp))
    have hcs := ih (fun d hd => h d (by simp [hd]))
    simp only [drawCubes, hc, hcs, Option.bind_eq_bind, Option.bind_some, List.map_cons,
      List.foldr_cons]
    rfl

/-- A pointer move never changes the held-button flags. -/
theorem mouseMoveEvent_flags (p : Vec2) (s : ViewerState) :
    (mouseMoveEvent p s).mouse_pressed = s.mouse_pressed ∧
    (mouseMoveEvent p s).right_mouse_pressed = s.right_mouse_pressed := by
  unfold mouseMoveEvent
  split_ifs <;> exact ⟨rfl, rfl⟩

/-- Field-level effect of a pointer move while the left button is held. -/
theorem move_rot_fields (p : Vec2) (s : ViewerState) (h : s.mouse_pressed = true) :
    (mouseMoveEvent p s).angle_x = s.angle_x + (p.y - s.last_mouse_position.y) ∧
    (mouseMoveEvent p s).angle_y = s.angle_y + (p.x - s.last_mouse_position.x) ∧
    (mouseMoveEvent p s).last_mouse_position = p ∧
    (mouseMoveEvent p s).translate_x = s.translate_x ∧
    (mouseMoveEvent p s).translate_y = s.translate_y ∧
    (mouseMoveEvent p s).zoom = s.zoom := by
  simp [mouseMoveEvent, h]

/-- Field-level effect of a pointer move while only the right button is
held. -/
theorem move_pan_fields (p : Vec2) (s : ViewerState)
    (hl : s.mouse_pressed = false) (hr : s.right_mouse_pressed = true) :
    (mouseMoveEvent p s).translate_x
      = s.translate_x + (p.x - s.last_mouse_position.x) * (1 / 10) ∧
    (mouseMoveEvent p s).translate_y
      = s.translate_y - (p.y - s.last_mouse_position.y) * (1 / 10) ∧
    (mouseMoveEvent p s).last_mouse_position = p ∧
    (mouseMoveEvent p s).angle_x = s.angle_x ∧
    (mouseMoveEvent p s).angle_y = s.angle_y ∧
    (mouseMoveEvent p s).zoom = s.zoom := by
  simp [mouseMoveEvent, hl, hr]

/-! ## Claims -/

/-- C4: a wheel event with vertical delta `d` adds `d × 0.001` to `zoom` in
every interaction state, leaves the held-button flags, the reference
position and all other camera fields unchanged, and a delta of +120
increases `zoom` by 0.12. -/
theorem C4_wheel_zoom_only (s : ViewerState) (d : ℚ) :
    (wheelEvent d s).zoom = s.zoom + d * (1 / 1000) ∧
    (wheelEvent d s).angle_x = s.angle_x ∧
    (wheelEvent d s).angle_y = s.angle_y ∧
    (wheelEvent d s).translate_x = s.translate_x ∧
    (wheelEvent d s).translate_y = s.translate_y ∧
    (wheelEvent d s).mouse_pressed = s.mouse_pressed ∧
    (wheelEvent d s).right_mouse_pressed = s.right_mouse_pressed ∧
    (wheelEvent d s).last_mouse_position = s.last_mouse_position ∧
    (wheelEvent 120 s).zoom = s.zoom + 12 / 100 := by
  refine ⟨rfl, rfl, rfl, rfl, rfl, rfl, rfl, rfl, ?_⟩
  show s.zoom + 120 * (1 / 1000) = s.zoom + 12 / 100
  norm_num

/-- C6: a middle-button press only raises the marker-insertion notification
outward; the viewer state is returned unchanged and no failure occurs
(behaviour of `add_cube_at_center` modelled from the spec, the method being
absent from the sources). -/
theorem C6_middle_press_raises_only (s : ViewerState) (p : Vec2) :
    mousePressEvent .middle p s = (s, [OutEvent.insertMarker]) := rfl

/-- C7: resizing to height 0 never divides by zero: the effective height is
1, so the projection is 45° with aspect `w / 1`, near 0.1, far 100. -/
theorem C7_resize_zero_height (w : ℤ) :
    resizeGL w 0 = some ⟨45, (w : ℚ) / 1, 1 / 10, 100⟩ := by
  simp [resizeGL, ratDiv]

/-- C10: the default cube size is the two-component vector (1.0, 1.0), yet
`draw_cube` reads the third component of the halved size vector, so
rendering a frame containing a default-size cube fails with an out-of-range
index access instead of drawing a box. -/
theorem C10_default_size_render_fails :
    defaultCube.size = [1, 1] ∧
    defaultCube.size.length = 2 ∧
    draw_cube defaultCube.size = none ∧
    paintGL initState [defaultCube] [] = none :=
  ⟨rfl, rfl, rfl, rfl⟩

/-- C9 counterexample: `change_FPS` does not succeed for every FPS value —
at FPS = 0 the interval division `1000 / FPS` raises (modelled `none`). -/
theorem C9_counterexample_fps_zero :
    change_FPS 0 ⟨true, 50⟩ = none := rfl

/-- C9 (amended): for every nonzero FPS value the frame-rate change
succeeds, stopping the timer when it is active and restarting it with
interval `1000 / FPS` milliseconds. -/
theorem C9_change_FPS_nonzero (fps : ℚ) (t : TimerState) (h : fps ≠ 0) :
    change_FPS fps t =
      some (⟨true, 1000 / fps⟩,
            (if t.active then [TimerOp.stop] else []) ++ [TimerOp.start (1000 / fps)]) := by
  cases ht : t.active <;> simp [change_FPS, ratDiv, h, ht]

/-- C9 witness: changing to 60 FPS on an active timer stops it and restarts
it with interval `1000 / 60` ms. -/
theorem C9_change_FPS_nonzero_witness :
    (60 : ℚ) ≠ 0 ∧
    change_FPS 60 ⟨true, 100⟩ =
      some (⟨true, 1000 / 60⟩, [TimerOp.stop, TimerOp.start (1000 / 60)]) := by
  refine ⟨by norm_num, ?_⟩
  have h := C9_change_FPS_nonzero 60 ⟨true, 100⟩ (by norm_num)
  simpa using h

/-- C5 counterexample: the claimed frame-command order does not hold for
every list of cubes — a cube whose size list has only two components makes
`paintGL` fail (out-of-range index in `draw_cube`), emitting nothing. -/
theorem C5_counterexample_short_size :
    paintGL ⟨30, 40, 1, 2, -8, ⟨0, 0⟩, false, false⟩
      [{ position := ⟨1, 2, 3⟩, size := [2, 2] }] [] = none := rfl

/-- C5 (amended): for every camera state, every list of cubes whose size
lists have at least three components, and every list of point groups, one
frame emits: clear; reset; translate (pan_x, pan_y, zoom); rotate angle_x
about X; rotate angle_y about Y; the axes; each cube's block (push,
translate to position, set color, rotate X then Y then Z, 12-edge wireframe
over the 8 corners at ± half the size vector, pop) in caller order; then
each point group in caller order. -/
theorem C5_frame_command_order (s : ViewerState) (cubes : List Cube)
    (groups : List GroupPoints) (h : ∀ c ∈ cubes, 3 ≤ c.size.length) :
    paintGL s cubes groups =
      some ([.clear, .loadIdentity,
             .translatef s.translate_x s.translate_y s.zoom,
             .rotatef s.angle_x 1 0 0,
             .rotatef s.angle_y 0 1 0]
            ++ draw_axes
            ++ (cubes.map cubeBlock).foldr (· ++ ·) []
            ++ drawGroups groups) := by
  unfold paintGL
  rw [drawCubes_eq cubes h]
  rfl

/-- C5 witness: the frame-command order at a concrete camera, one
well-sized cube and one point group. -/
theorem C5_frame_command_order_witness :
    (∀ c ∈ [demoCube], 3 ≤ c.size.length) ∧
    paintGL initState [demoCube] [⟨[⟨1, 1, 1⟩], ⟨0, 1, 1⟩⟩] =
      some ([.clear, .loadIdentity,
             .translatef initState.translate_x initState.translate_y initState.zoom,
             .rotatef initState.angle_x 1 0 0,
             .rotatef initState.angle_y 0 1 0]
            ++ draw_axes
            ++ ([demoCube].map cubeBlock).foldr (· ++ ·) []
            ++ drawGroups [⟨[⟨1, 1, 1⟩], ⟨0, 1, 1⟩⟩]) :=
  ⟨by decide,
   C5_frame_command_order initState [demoCube] [⟨[⟨1, 1, 1⟩], ⟨0, 1, 1⟩⟩] (by decide)⟩

/-- C8: with an empty cube list a redraw emits only the clear, the camera
transform, the axes and the point groups — no cube draw calls; and a point
group with an empty point list issues no point-draw call, its block being
just the color set. -/
theorem C8_empty_inputs (s : ViewerState) (groups : List GroupPoints)
    (g : GroupPoints) (h : g.points = []) :
    paintGL s [] groups =
      some ([.clear, .loadIdentity,
             .translatef s.translate_x s.translate_y s.zoom,
             .rotatef s.angle_x 1 0 0,
             .rotatef s.angle_y 0 1 0]
            ++ draw_axes
            ++ drawGroups groups) ∧
    draw_points g.points = [] ∧
    drawGroupCmds g = [.color3f g.color.x g.color.y g.color.z] := by
  refine ⟨rfl, ?_, ?_⟩
  · rw [h]; rfl
  · unfold drawGroupCmds
    rw [h]
    rfl

/-- C8 witness: an empty scene at the initial camera, alongside an empty
point group, at concrete values. -/
theorem C8_empty_inputs_witness :
    emptyGroup.points = [] ∧
    paintGL initState [] [emptyGroup] =
      some ([.clear, .loadIdentity,
             .translatef initState.translate_x initState.translate_y initState.zoom,
             .rotatef initState.angle_x 1 0 0,
             .rotatef initState.angle_y 0 1 0]
            ++ draw_axes
            ++ drawGroups [emptyGroup]) ∧
    draw_points emptyGroup.points = [] :=
  ⟨rfl, (C8_empty_inputs initState [emptyGroup] emptyGroup rfl).1,
   (C8_empty_inputs initState [emptyGroup] emptyGroup rfl).2.1⟩

/-- C2: while the left button is held, each pointer move adds the vertical
delta to `angle_x` and the horizontal delta to `angle_y`, so over any move
sequence the net changes are the sums of the per-step deltas, and the
reference position ends at the last pointer position. -/
theorem C2_rotating_accumulates (s : ViewerState) (ps : List Vec2)
    (h : s.mouse_pressed = true) :
    (runMoves ps s).angle_x = s.angle_x + sumDY s.last_mouse_position ps ∧
    (runMoves ps s).angle_y = s.angle_y + sumDX s.last_mouse_position ps ∧
    (runMoves ps s).last_mouse_position = ps.getLastD s.last_mouse_position := by
  induction ps generalizing s with
  | nil => simp [runMoves, sumDY, sumDX]
  | cons p ps ih =>
    obtain ⟨ha, hb, hc, -, -, -⟩ := move_rot_fields p s h
    have hpres : (mouseMoveEvent p s).mouse_pressed = true :=
      (mouseMoveEvent_flags p s).1.trans h
    obtain ⟨ihx, ihy, ihl⟩ := ih (mouseMoveEvent p s) hpres
    have hrun : runMoves (p :: ps) s = runMoves ps (mouseMoveEvent p s) := rfl
    refine ⟨?_, ?_, ?_⟩
    · rw [hrun, ihx, ha, hc]
      simp only [sumDY]
      ring
    · rw [hrun, ihy, hb, hc]
      simp only [sumDX]
      ring
    · rw [hrun, ihl, hc, List.getLastD_cons]

/-- C2 witness: from a left press at (100, 100), a move to (110, 115) adds
the delta sums to both angles and moves the reference to (110, 115). -/
theorem C2_rotating_accumulates_witness :
    sLeft.mouse_pressed = true ∧
    (runMoves [⟨110, 115⟩] sLeft).angle_x
      = sLeft.angle_x + sumDY sLeft.last_mouse_position [⟨110, 115⟩] ∧
    (runMoves [⟨110, 115⟩] sLeft).angle_y
      = sLeft.angle_y + sumDX sLeft.last_mouse_position [⟨110, 115⟩] ∧
    (runMoves [⟨110, 115⟩] sLeft).last_mouse_position
      = List.getLastD [⟨110, 115⟩] sLeft.last_mouse_position :=
  ⟨rfl, (C2_rotating_accumulates sLeft [⟨110, 115⟩] rfl).1,
   (C2_rotating_accumulates sLeft [⟨110, 115⟩] rfl).2.1,
   (C2_rotating_accumulates sLeft [⟨110, 115⟩] rfl).2.2⟩

/-- C3: while only the right button is held, each pointer move adds
`0.1 × Δx` to `translate_x` and subtracts `0.1 × Δy` from `translate_y`,
tracking the pointer as reference; in particular a right press at (50, 50)
followed by a move to (60, 40) increases both by exactly 1. -/
theorem C3_panning_accumulates (s : ViewerState) (ps : List Vec2)
    (hl : s.mouse_pressed = false) (hr : s.right_mouse_pressed = true) :
    ((runMoves ps s).translate_x
        = s.translate_x + sumDX s.last_mouse_position ps * (1 / 10) ∧
     (runMoves ps s).translate_y
        = s.translate_y - sumDY s.last_mouse_position ps * (1 / 10) ∧
     (runMoves ps s).last_mouse_position = ps.getLastD s.last_mouse_position) ∧
    ((runEvents initState [.press .right ⟨50, 50⟩, .move ⟨60, 40⟩]).translate_x
        = initState.translate_x + 1 ∧
     (runEvents initState [.press .right ⟨50, 50⟩, .move ⟨60, 40⟩]).translate_y
        = initState.translate_y + 1) := by
  refine ⟨?_, ?_⟩
  · induction ps generalizing s with
    | nil => simp [runMoves, sumDY, sumDX]
    | cons p ps ih =>
      obtain ⟨ha, hb, hc, -, -, -⟩ := move_pan_fields p s hl hr
      obtain ⟨hfl, hfr⟩ := mouseMoveEvent_flags p s
      obtain ⟨ihx, ihy, ihl⟩ := ih (mouseMoveEvent p s) (hfl.trans hl) (hfr.trans hr)
      have hrun : runMoves (p :: ps) s = runMoves ps (mouseMoveEvent p s) := rfl
      refine ⟨?_, ?_, ?_⟩
      · rw [hrun, ihx, ha, hc]
        simp only [sumDX]
        ring
      · rw [hrun, ihy, hb, hc]
        simp only [sumDY]
        ring
      · rw [hrun, ihl, hc, List.getLastD_cons]
  · constructor <;>
      · simp [runEvents, stepEvent, mousePressEvent, mouseMoveEvent, initState]
        norm_num

/-- C3 witness: the panning accumulation applied from the state after a
right press at (50, 50), moving to (60, 40). -/
theorem C3_panning_accumulates_witness :
    (sRight.mouse_pressed = false ∧ sRight.right_mouse_pressed = true) ∧
    (runMoves [⟨60, 40⟩] sRight).translate_x
      = sRight.translate_x + sumDX sRight.last_mouse_position [⟨60, 40⟩] * (1 / 10) ∧
    (runMoves [⟨60, 40⟩] sRight).translate_y
      = sRight.translate_y - sumDY sRight.last_mouse_position [⟨60, 40⟩] * (1 / 10) :=
  ⟨⟨rfl, rfl⟩, ((C3_panning_accumulates sRight [⟨60, 40⟩] rfl rfl).1).1,
   ((C3_panning_accumulates sRight [⟨60, 40⟩] rfl rfl).1).2.1⟩

/-- C1 counterexample: press left at (0, 0), then right at (0, 0) — right
pressed most recently — then move to (10, 0).  The claim predicts panning
(`translate_x` would become 1 and `angle_y` stay 0); the code instead
rotates, because `mouseMoveEvent` tests the left-button flag first: the pan
fields stay 0 and `angle_y` gains the horizontal delta 10. -/
theorem C1_counterexample_recency :
    (runEvents initState bothHeldSeq).translate_x = 0 ∧
    (runEvents initState bothHeldSeq).translate_y = 0 ∧
    (runEvents initState bothHeldSeq).angle_y = 10 ∧
    ¬((runEvents initState bothHeldSeq).translate_x = 1 ∧
      (runEvents initState bothHeldSeq).angle_y = 0) := by
  refine ⟨?_, ?_, ?_, ?_⟩ <;>
    simp [bothHeldSeq, runEvents, stepEvent, mousePressEvent, mouseMoveEvent, initState]

/-- C1 (amended): when both pointer buttons are held, pointer moves are
processed by the rotating (left) branch regardless of which button was
pressed most recently; releasing either button deactivates only that
branch — after a left release the still-held right button makes subsequent
moves pan, and after a right release the still-held left button keeps
subsequent moves rotating. -/
theorem C1_both_buttons_left_priority (s : ViewerState) (p q : Vec2)
    (hl : s.mouse_pressed = true) (hr : s.right_mouse_pressed = true) :
    ((mouseMoveEvent p s).angle_x = s.angle_x + (p.y - s.last_mouse_position.y) ∧
     (mouseMoveEvent p s).angle_y = s.angle_y + (p.x - s.last_mouse_position.x) ∧
     (mouseMoveEvent p s).translate_x = s.translate_x ∧
     (mouseMoveEvent p s).translate_y = s.translate_y) ∧
    ((mouseReleaseEvent .left s).mouse_pressed = false ∧
     (mouseReleaseEvent .left s).right_mouse_pressed = true ∧
     (mouseMoveEvent q (mouseReleaseEvent .left s)).translate_x
       = s.translate_x + (q.x - s.last_mouse_position.x) * (1 / 10) ∧
     (mouseMoveEvent q (mouseReleaseEvent .left s)).angle_x = s.angle_x) ∧
    ((mouseReleaseEvent .right s).right_mouse_pressed = false ∧
     (mouseReleaseEvent .right s).mouse_pressed = true ∧
     (mouseMoveEvent q (mouseReleaseEvent .right s)).angle_x
       = s.angle_x + (q.y - s.last_mouse_position.y) ∧
     (mouseMoveEvent q (mouseReleaseEvent .right s)).translate_x = s.translate_x) := by
  refine ⟨?_, ?_, ?_⟩ <;> simp [mouseMoveEvent, mouseReleaseEvent, hl, hr]

/-- C1 witness: the left-priority behaviour at a concrete both-held state
(left pressed at (0, 0), then right at (3, 4)), moving to (5, 6). -/
theorem C1_both_buttons_left_priority_witness :
    (sBoth.mouse_pressed = true ∧ sBoth.right_mouse_pressed = true) ∧
    (mouseMoveEvent ⟨5, 6⟩ sBoth).translate_x = sBoth.translate_x ∧
    (mouseMoveEvent ⟨5, 6⟩ sBoth).angle_x
      = sBoth.angle_x + ((6 : ℚ) - sBoth.last_mouse_position.y) ∧
    (mouseMoveEvent ⟨5, 6⟩ (mouseReleaseEvent .left sBoth)).translate_x
      = sBoth.translate_x + ((5 : ℚ) - sBoth.last_mouse_position.x) * (1 / 10) :=
  ⟨⟨rfl, rfl⟩,
   (C1_both_buttons_left_priority sBoth ⟨5, 6⟩ ⟨5, 6⟩ rfl rfl).1.2.2.1,
   (C1_both_buttons_left_priority sBoth ⟨5, 6⟩ ⟨5, 6⟩ rfl rfl).1.1,
   (C1_both_buttons_left_priority sBoth ⟨5, 6⟩ ⟨5, 6⟩ rfl rfl).2.1.2.2.1⟩

end Q3DViewer
